import Mathlib

/-!
Shallow embedding of the real-time group-chat subsystem of the
PensaConnect backend (`backend/__init__.py`, `_register_websocket_events`).

Python dictionaries are modelled as association lists (insertion-ordered
maps, matching CPython semantics), Python sets stored in those dicts as
duplicate-free lists with add-if-absent / remove, Python strings as Lean
`String` (a structure over `List Char`), and `time.time()` / `datetime`
values as integers.  External collaborators (the JWT decoder
`flask_jwt_extended.decode_token`, the SQLAlchemy session commit, the
`User.query.get` profile lookup) are passed in as explicit parameters,
and the Socket.IO room manager (`join_room` / `leave_room` / automatic
room cleanup on disconnect, per python-socketio's manager) is part of the
modelled state.
-/

namespace Pensa

/-- Socket session id (`request.sid`). Opaque per-connection identifier. -/
abbrev Sid := Nat

/-- Authenticated user identity: the JWT `sub` claim, created from the
integral `user.id` (`create_access_token(identity=user.id)`). -/
abbrev UserId := Nat

/-- Group-chat id. The handlers apply Python `int(...)` to the payload
field, so it is an integer (possibly negative). -/
abbrev GroupId := Int

/-! ### Association-list model of Python dict -/

/-- `d.get(k)` on a Python dict. -/
def alookup {α β : Type} [DecidableEq α] : List (α × β) → α → Option β
  | [], _ => none
  | (k, v) :: rest, a => if a = k then some v else alookup rest a

/-- `d[k] = v` on a Python dict: replace in place when the key is present,
append otherwise (CPython preserves insertion order). -/
def aset {α β : Type} [DecidableEq α] : List (α × β) → α → β → List (α × β)
  | [], a, b => [(a, b)]
  | (k, v) :: rest, a, b =>
    if a = k then (k, b) :: rest else (k, v) :: aset rest a b

/-- `d.pop(k, None)` on a Python dict: drop the binding when present. -/
def apop {α β : Type} [DecidableEq α] : List (α × β) → α → List (α × β)
  | [], _ => []
  | (k, v) :: rest, a => if a = k then rest else (k, v) :: apop rest a

/-- `s.add(x)` on a Python set modelled as a duplicate-free list. -/
def sadd {α : Type} [DecidableEq α] (l : List α) (x : α) : List α :=
  if x ∈ l then l else l ++ [x]

/-- `s.discard(x)` / removal on a Python set modelled as a list. -/
def sdel {α : Type} [DecidableEq α] (l : List α) (x : α) : List α :=
  l.filter (fun y => y ≠ x)

/-! ### Python `str.strip()` -/

/-- Python whitespace characters recognised by `str.strip()`. -/
def isPySpace (c : Char) : Bool :=
  c = ' ' || c = '\t' || c = '\n' || c = '\r' || c = Char.ofNat 11 || c = Char.ofNat 12

/-- `str.strip()` on the character list: drop whitespace from both ends. -/
def stripChars (l : List Char) : List Char :=
  ((l.dropWhile isPySpace).reverse.dropWhile isPySpace).reverse

/-- Python `content.strip()`. -/
def pyStrip (s : String) : String := ⟨stripChars s.data⟩

/-! ### Rate limiter (`_is_rate_limited`)

The store is `current_app.rate_limit_store`, a dict keyed by the string
`f"{user_id}:{group_id}"`; since that formatting is injective on the
`(user_id, group_id)` pair (the separator `:` occurs in neither rendered
integer), the key is modelled as the pair itself. -/

/-- The rate-limit store: `(user, group)` key to list of send timestamps. -/
abbrev RateStore := List ((UserId × GroupId) × List Int)

/-- The list comprehension keeping `t` with `current_time - t < 60`
("Clean old entries (older than 1 minute)"). -/
def pruneWindow (now : Int) (ts : List Int) : List Int :=
  ts.filter (fun t => now - t < 60)

/-- `_is_rate_limited(user_id, group_id)` at time `now`.
Returns the boolean result and the updated store: the key is initialised
to `[]` when absent, the list is pruned to the trailing 60-second window,
and when the pruned list still has `>= 10` entries the call returns
`true` without recording; otherwise `now` is appended and it returns
`false`. -/
def isRateLimited (user_id : UserId) (group_id : GroupId) (now : Int)
    (store : RateStore) : Bool × RateStore :=
  let ts := (alookup store (user_id, group_id)).getD []
  let pruned := pruneWindow now ts
  if 10 ≤ pruned.length then
    (true, aset store (user_id, group_id) pruned)
  else
    (false, aset store (user_id, group_id) (pruned ++ [now]))

/-! ### State of the websocket subsystem -/

/-- One entry of `connected_users`:
`{'user_id': ..., 'rooms': set(), 'connected_at': ...}`. -/
structure SessionInfo where
  user_id : UserId
  rooms : List String
  connected_at : Int
  deriving Repr, DecidableEq

/-- A persisted `GroupMessage` row (fields set in `handle_send_message`;
`id` is assigned by the database on commit). -/
structure GroupMessage where
  id : Nat
  group_chat_id : GroupId
  sender_id : UserId
  content : String
  message_type : String
  created_at : Int
  deriving Repr, DecidableEq

/-- The full modelled state: the module-level dicts `connected_users` and
`user_typing`, the Socket.IO room manager's room-membership table, the
rate-limit store and the durable message table. -/
structure ChatState where
  connected_users : List (Sid × SessionInfo)
  server_rooms : List (String × List Sid)
  user_typing : List (GroupId × List UserId)
  rate_limit_store : RateStore
  messages : List GroupMessage
  deriving Repr, DecidableEq

/-- Process start: every table empty. -/
def initState : ChatState :=
  { connected_users := [], server_rooms := [], user_typing := [],
    rate_limit_store := [], messages := [] }

/-- Sessions currently in room `r` of a raw room table. -/
def membersOf (rooms : List (String × List Sid)) (r : String) : List Sid :=
  (alookup rooms r).getD []

/-- Sessions currently in Socket.IO room `r` (the fan-out set used when
emitting to `room=r`). -/
def roomMembers (st : ChatState) (r : String) : List Sid :=
  membersOf st.server_rooms r

/-- `join_room(room)` for `sid`: the manager adds the sid to the room
(idempotently). -/
def joinRoom (sid : Sid) (r : String) (rooms : List (String × List Sid)) :
    List (String × List Sid) :=
  match alookup rooms r with
  | none => rooms ++ [(r, [sid])]
  | some ms => aset rooms r (sadd ms sid)

/-- `leave_room(room)` for `sid`: the manager removes the sid from the
room when present. -/
def leaveRoom (sid : Sid) (r : String) (rooms : List (String × List Sid)) :
    List (String × List Sid) :=
  match alookup rooms r with
  | none => rooms
  | some ms => aset rooms r (sdel ms sid)

/-- On transport disconnect python-socketio's manager removes the sid
from every room it was in. -/
def serverCleanup (sid : Sid) (rooms : List (String × List Sid)) :
    List (String × List Sid) :=
  rooms.map (fun p => (p.1, sdel p.2 sid))

/-- The room name used throughout the handlers. -/
def roomName (g : GroupId) : String := "group_" ++ toString g

/-! ### Emitted events -/

/-- Where an emit is addressed: `room=request.sid` targets the session's
private channel; `room="group_x"` is a room broadcast, where
`include_self=False` inside a handler sets `skip_sid` to the caller's
sid (flask-socketio `SocketIO.emit`). -/
inductive EmitTarget where
  | toSid (s : Sid)
  | toRoom (r : String) (skip : Option Sid)
  deriving Repr, DecidableEq

/-- Payload values (the subset of JSON the handlers produce). -/
inductive PVal where
  | nat (v : Nat)
  | int (v : Int)
  | str (v : String)
  deriving Repr, DecidableEq

/-- One `emit(...)` performed by a handler. -/
structure EmitEvent where
  name : String
  payload : List (String × PVal)
  target : EmitTarget
  deriving Repr, DecidableEq

/-- The sessions that receive an emit, given the room state at emit time:
a private emit reaches exactly its sid; a room emit reaches the room's
members minus the skipped sid. -/
def recipients (st : ChatState) : EmitTarget → List Sid
  | .toSid s => [s]
  | .toRoom r skip => (roomMembers st r).filter (fun x => some x ≠ skip)

/-! ### Connection lifecycle handlers -/

/-- Result of `decode_token` for the external JWT collaborator: `none`
models a raised exception (malformed token), `some sub` a decoded payload
whose `sub` claim is `sub` (`none` when the claim is absent).  A present
integral claim is Python-falsy exactly when it is `0`. -/
abbrev TokenDecoder := String → Option (Option UserId)

/-- `handle_connect`: validate the token, then register the session and
privately acknowledge.  The returned `Bool` is the handler's accept
value (`False` refuses the connection; the `except` branch also returns
`False`). -/
def handle_connect (decode : TokenDecoder) (token : Option String)
    (sid : Sid) (now : Int) (st : ChatState) :
    ChatState × List EmitEvent × Bool :=
  match token with
  | none => (st, [], false)
  | some tok =>
    match decode tok with
    | none => (st, [], false)
    | some sub =>
      match sub with
      | none => (st, [], false)
      | some user_id =>
        if user_id = 0 then (st, [], false)
        else
          let info : SessionInfo :=
            { user_id := user_id, rooms := [], connected_at := now }
          ({ st with connected_users := aset st.connected_users sid info },
           [{ name := "connected",
              payload := [("status", .str "success"), ("sid", .nat sid),
                          ("userId", .nat user_id)],
              target := .toSid sid }],
           true)

/-- `handle_disconnect` together with the manager's unconditional room
cleanup: the sid leaves every Socket.IO room and its `connected_users`
entry is popped (`pop(sid, None)`, a no-op when absent). -/
def handle_disconnect (sid : Sid) (st : ChatState) :
    ChatState × List EmitEvent :=
  ({ st with connected_users := apop st.connected_users sid,
             server_rooms := serverCleanup sid st.server_rooms },
   [])

/-- `handle_join_group`.  `int(data.get("groupId"))` raises on a missing
field; the handler has no try/except, so a raise is surfaced as
`Except.error` (state untouched, nothing emitted by this handler). -/
def handle_join_group (sid : Sid) (groupId : Option GroupId)
    (st : ChatState) : Except String (ChatState × List EmitEvent) :=
  match groupId with
  | none => .error "TypeError: int() argument is None"
  | some g =>
    let room := roomName g
    let st1 := { st with server_rooms := joinRoom sid room st.server_rooms }
    let st2 :=
      match alookup st1.connected_users sid with
      | none => st1
      | some info =>
        let info2 := { info with rooms := sadd info.rooms room }
        { st1 with connected_users := aset st1.connected_users sid info2 }
    .ok (st2, [{ name := "joined", payload := [("groupId", .int g)],
                 target := .toSid sid }])

/-- `handle_leave_group`: symmetric removal, same missing-field raise. -/
def handle_leave_group (sid : Sid) (groupId : Option GroupId)
    (st : ChatState) : Except String (ChatState × List EmitEvent) :=
  match groupId with
  | none => .error "TypeError: int() argument is None"
  | some g =>
    let room := roomName g
    let st1 := { st with server_rooms := leaveRoom sid room st.server_rooms }
    let st2 :=
      match alookup st1.connected_users sid with
      | none => st1
      | some info =>
        let info2 := { info with rooms := sdel info.rooms room }
        { st1 with connected_users := aset st1.connected_users sid info2 }
    .ok (st2, [{ name := "left", payload := [("groupId", .int g)],
                 target := .toSid sid }])

/-! ### Messaging -/

/-- The `send_message` payload fields the handler reads (typed model of
the untyped dict: `groupId` / `group_id` as integers, `content` as a
string; absent fields are `none`). -/
structure SendData where
  groupId : Option GroupId
  group_id : Option GroupId
  content : Option String
  deriving Repr, DecidableEq

/-- Python `a or b` on the two optional integer fields
(`data.get("groupId") or data.get("group_id")`): the second operand is
taken whenever the first is falsy (`None` or `0`). -/
def pyOrGroup (a b : Option GroupId) : Option GroupId :=
  match a with
  | some g => if g = 0 then b else some g
  | none => b

/-- External `User.query.get` collaborator used for sender enrichment. -/
structure UserRec where
  full_name : String
  username : String
  profile_picture : String
  deriving Repr, DecidableEq

/-- Profile lookup; `none` models both a missing row and a raised (and
caught) exception in the enrichment block. -/
abbrev UserLookup := UserId → Option UserRec

/-- The private error event emitted by `handle_send_message`'s `except`
branch: `safe_emit("send_error", {"error": str(e)}, room=request.sid)`. -/
def sendErrorEvent (msg : String) (sid : Sid) : EmitEvent :=
  { name := "send_error", payload := [("error", .str msg)],
    target := .toSid sid }

/-- The `new_message` broadcast payload built after a successful commit. -/
def newMessagePayload (ul : UserLookup) (m : GroupMessage) :
    List (String × PVal) :=
  let base : List (String × PVal) :=
    [("id", .nat m.id), ("groupId", .int m.group_chat_id),
     ("senderId", .nat m.sender_id), ("content", .str m.content),
     ("messageType", .str m.message_type), ("createdAt", .int m.created_at)]
  match ul m.sender_id with
  | none => base
  | some u =>
    base ++ [("senderName", .str u.full_name),
             ("senderUsername", .str u.username),
             ("senderProfilePicture", .str u.profile_picture)]

/-- `handle_send_message`.  The whole body is wrapped in try/except, so
the function is total: every raise lands in the `except` branch, which
emits exactly one `send_error` to the caller's sid.  `commit_ok` models
whether `db.session.commit()` succeeds (`false` = the persistence step
raises); the new row's `id` is assigned by the database on commit. -/
def handle_send_message (ul : UserLookup) (sid : Sid) (data : SendData)
    (now : Int) (commit_ok : Bool) (st : ChatState) :
    ChatState × List EmitEvent :=
  match alookup st.connected_users sid with
  | none =>
    (st, [sendErrorEvent "Unauthenticated socket - user not found in connected_users" sid])
  | some info =>
    if info.user_id = 0 then
      (st, [sendErrorEvent "Unauthenticated socket - user not found in connected_users" sid])
    else
      match pyOrGroup data.groupId data.group_id with
      | none => (st, [sendErrorEvent "Missing groupId" sid])
      | some group_id =>
        match data.content with
        | none => (st, [sendErrorEvent "Missing content" sid])
        | some content =>
          if pyStrip content = "" then
            (st, [sendErrorEvent "Message content empty" sid])
          else
            match isRateLimited info.user_id group_id now st.rate_limit_store with
            | (true, store2) =>
              ({ st with rate_limit_store := store2 },
               [sendErrorEvent "Rate limit exceeded" sid])
            | (false, store2) =>
              if commit_ok then
                let message : GroupMessage :=
                  { id := st.messages.length + 1, group_chat_id := group_id,
                    sender_id := info.user_id, content := pyStrip content,
                    message_type := "text", created_at := now }
                ({ st with rate_limit_store := store2,
                           messages := st.messages ++ [message] },
                 [{ name := "new_message",
                    payload := newMessagePayload ul message,
                    target := .toRoom (roomName group_id) none }])
              else
                ({ st with rate_limit_store := store2 },
                 [sendErrorEvent "PersistenceError: database commit failed" sid])

/-! ### Typing indicators -/

/-- `handle_typing`: `int(data.get("groupId"))` raises on a missing
field (no try/except around this handler either); an unknown or falsy
`user_id` silently returns; otherwise the user is added to the group's
typing set and `user_typing` is broadcast with `include_self=False`
(the caller's sid is skipped). -/
def handle_typing (sid : Sid) (groupId : Option GroupId) (st : ChatState) :
    Except String (ChatState × List EmitEvent) :=
  match groupId with
  | none => .error "TypeError: int() argument is None"
  | some g =>
    match alookup st.connected_users sid with
    | none => .ok (st, [])
    | some info =>
      if info.user_id = 0 then .ok (st, [])
      else
        let cur := (alookup st.user_typing g).getD []
        .ok ({ st with user_typing := aset st.user_typing g (sadd cur info.user_id) },
             [{ name := "user_typing",
                payload := [("user_id", .nat info.user_id), ("group_id", .int g)],
                target := .toRoom (roomName g) (some sid) }])

/-- `handle_stop_typing`: reads the `group_id` payload key (not
`groupId`), discards the user from the typing set, broadcasts with the
sender excluded. -/
def handle_stop_typing (sid : Sid) (group_id : Option GroupId)
    (st : ChatState) : Except String (ChatState × List EmitEvent) :=
  match group_id with
  | none => .error "TypeError: int() argument is None"
  | some g =>
    match alookup st.connected_users sid with
    | none => .ok (st, [])
    | some info =>
      if info.user_id = 0 then .ok (st, [])
      else
        let cur := (alookup st.user_typing g).getD []
        .ok ({ st with user_typing := aset st.user_typing g (sdel cur info.user_id) },
             [{ name := "user_stop_typing",
                payload := [("user_id", .nat info.user_id), ("group_id", .int g)],
                target := .toRoom (roomName g) (some sid) }])

/-! ### Event dispatch and reachable states -/

/-- The inbound events handled while a connection is live (the connect
handshake and the transport-level disconnect are modelled separately in
the step relation). -/
inductive Event where
  | join_group (groupId : Option GroupId)
  | leave_group (groupId : Option GroupId)
  | send_message (data : SendData) (commit_ok : Bool)
  | typing (groupId : Option GroupId)
  | stop_typing (group_id : Option GroupId)
  deriving Repr, DecidableEq

/-- Per-event dispatch.  A handler that raises (`Except.error`) is
routed to `socket_error_handler` (`on_error_default`), which only logs:
the dispatcher keeps running, the state is untouched, and nothing is
emitted.  `handle_send_message` never raises out of its own try/except. -/
def dispatch (ul : UserLookup) (sid : Sid) (now : Int) (e : Event)
    (st : ChatState) : ChatState × List EmitEvent :=
  match e with
  | .join_group g =>
    match handle_join_group sid g st with
    | .ok r => r
    | .error _ => (st, [])
  | .leave_group g =>
    match handle_leave_group sid g st with
    | .ok r => r
    | .error _ => (st, [])
  | .send_message d ok => handle_send_message ul sid d now ok st
  | .typing g =>
    match handle_typing sid g st with
    | .ok r => r
    | .error _ => (st, [])
  | .stop_typing g =>
    match handle_stop_typing sid g st with
    | .ok r => r
    | .error _ => (st, [])

/-- One transition of the live system.  Transport facts baked into the
relation: a `connect` handshake only happens for a sid not currently
registered (Socket.IO mints a fresh sid per connection, and a refused
handshake never registers), and post-handshake events only arrive from
sids whose handshake was accepted and that have not yet disconnected —
which, by construction of `handle_connect` / `handle_disconnect`, are
exactly the sids present in `connected_users`. -/
inductive Step (decode : TokenDecoder) (ul : UserLookup) :
    ChatState → ChatState → Prop where
  | connect {st : ChatState} (sid : Sid) (token : Option String) (now : Int)
      (fresh : alookup st.connected_users sid = none) :
      Step decode ul st (handle_connect decode token sid now st).1
  | disconnect {st : ChatState} (sid : Sid) :
      Step decode ul st (handle_disconnect sid st).1
  | active {st : ChatState} (sid : Sid) (now : Int) (e : Event)
      (live : (alookup st.connected_users sid).isSome) :
      Step decode ul st (dispatch ul sid now e st).1

/-- States reachable from process start. -/
def Reachable (decode : TokenDecoder) (ul : UserLookup) (st : ChatState) : Prop :=
  Relation.ReflTransGen (Step decode ul) initState st

/-! ### Lemmas: association lists -/

/-- Keys of the association list are distinct (true of every Python
dict, and preserved by all the operations used here). -/
def NodupKeys {α β : Type} (l : List (α × β)) : Prop :=
  (l.map Prod.fst).Nodup

theorem alookup_aset_self {α β : Type} [DecidableEq α]
    (l : List (α × β)) (k : α) (v : β) : alookup (aset l k v) k = some v := by
  induction l with
  | nil => simp [aset, alookup]
  | cons p rest ih =>
    by_cases h : k = p.1 <;> simp [aset, alookup, h, ih]

theorem alookup_aset_ne {α β : Type} [DecidableEq α]
    (l : List (α × β)) (k a : α) (v : β) (h : a ≠ k) :
    alookup (aset l k v) a = alookup l a := by
  induction l with
  | nil => simp [aset, alookup, h]
  | cons p rest ih =>
    by_cases hk : k = p.1
    · subst hk; simp [aset, alookup, h, ih]
    · by_cases ha : a = p.1 <;> simp [aset, alookup, hk, ha, ih]

theorem alookup_apop_ne {α β : Type} [DecidableEq α]
    (l : List (α × β)) (k a : α) (h : a ≠ k) :
    alookup (apop l k) a = alookup l a := by
  induction l with
  | nil => simp [apop]
  | cons p rest ih =>
    by_cases hk : k = p.1
    · subst hk; simp [apop, alookup, h]
    · by_cases ha : a = p.1 <;> simp [apop, alookup, hk, ha, ih]

theorem alookup_eq_none_of_not_mem {α β : Type} [DecidableEq α]
    (l : List (α × β)) (a : α) (h : a ∉ l.map Prod.fst) :
    alookup l a = none := by
  induction l with
  | nil => simp [alookup]
  | cons p rest ih =>
    simp only [List.map_cons, List.mem_cons, not_or] at h
    simp [alookup, h.1, ih h.2]

theorem not_mem_of_alookup_eq_none {α β : Type} [DecidableEq α]
    (l : List (α × β)) (a : α) (h : alookup l a = none) :
    a ∉ l.map Prod.fst := by
  induction l with
  | nil => simp
  | cons p rest ih =>
    by_cases ha : a = p.1
    · simp [alookup, ha] at h
    · simp only [alookup, ha, if_false] at h
      simp [ha, ih h]

theorem alookup_apop_self {α β : Type} [DecidableEq α]
    (l : List (α × β)) (k : α) (h : NodupKeys l) :
    alookup (apop l k) k = none := by
  induction l with
  | nil => simp [apop, alookup]
  | cons p rest ih =>
    simp only [NodupKeys, List.map_cons, List.nodup_cons] at h
    by_cases hk : k = p.1
    · subst hk
      simp only [apop, if_pos rfl]
      exact alookup_eq_none_of_not_mem rest p.1 h.1
    · simp [apop, alookup, hk, ih h.2]

theorem apop_of_alookup_eq_none {α β : Type} [DecidableEq α]
    (l : List (α × β)) (k : α) (h : alookup l k = none) :
    apop l k = l := by
  induction l with
  | nil => simp [apop]
  | cons p rest ih =>
    by_cases hk : k = p.1
    · simp [alookup, hk] at h
    · simp only [alookup, hk, if_false] at h
      simp [apop, hk, ih h]

theorem aset_of_alookup_eq_some {α β : Type} [DecidableEq α]
    (l : List (α × β)) (k : α) (v : β) (h : alookup l k = some v) :
    aset l k v = l := by
  induction l with
  | nil => simp [alookup] at h
  | cons p rest ih =>
    obtain ⟨k1, v1⟩ := p
    by_cases hk : k = k1
    · subst hk
      simp only [alookup, if_true, eq_self_iff_true, Option.some.injEq] at h
      simp [aset, h]
    · simp only [alookup, hk, if_false] at h
      simp [aset, hk, ih h]

theorem alookup_append_of_some {α β : Type} [DecidableEq α]
    (l l2 : List (α × β)) (a : α) (v : β) (h : alookup l a = some v) :
    alookup (l ++ l2) a = some v := by
  induction l with
  | nil => simp [alookup] at h
  | cons p rest ih =>
    by_cases ha : a = p.1
    · simp_all [alookup]
    · simp only [alookup, ha, if_false] at h
      simp [alookup, ha, ih h]

theorem alookup_append_of_none {α β : Type} [DecidableEq α]
    (l l2 : List (α × β)) (a : α) (h : alookup l a = none) :
    alookup (l ++ l2) a = alookup l2 a := by
  induction l with
  | nil => simp
  | cons p rest ih =>
    by_cases ha : a = p.1
    · simp [alookup, ha] at h
    · simp only [alookup, ha, if_false] at h
      simp [alookup, ha, ih h]

theorem keys_aset {α β : Type} [DecidableEq α]
    (l : List (α × β)) (k : α) (v : β) :
    (aset l k v).map Prod.fst
      = if k ∈ l.map Prod.fst then l.map Prod.fst else l.map Prod.fst ++ [k] := by
  induction l with
  | nil => simp [aset]
  | cons p rest ih =>
    by_cases hk : k = p.1
    · simp [aset, hk]
    · by_cases hm : k ∈ rest.map Prod.fst <;>
        simp [aset, hk, Ne.symm hk, hm, ih]

theorem nodupKeys_aset {α β : Type} [DecidableEq α]
    (l : List (α × β)) (k : α) (v : β) (h : NodupKeys l) :
    NodupKeys (aset l k v) := by
  unfold NodupKeys
  rw [keys_aset]
  by_cases hm : k ∈ l.map Prod.fst
  · rw [if_pos hm]; exact h
  · rw [if_neg hm, List.nodup_append]
    refine ⟨h, List.nodup_singleton k, ?_⟩
    intro a ha hb
    rw [List.mem_singleton] at hb
    subst hb
    exact hm ha

theorem keys_apop_subset {α β : Type} [DecidableEq α]
    (l : List (α × β)) (k : α) :
    ∀ x ∈ (apop l k).map Prod.fst, x ∈ l.map Prod.fst := by
  induction l with
  | nil => simp [apop]
  | cons p rest ih =>
    intro x hx
    by_cases hk : k = p.1
    · rw [List.map_cons, List.mem_cons]
      right
      simpa [apop, hk] using hx
    · simp only [apop, hk, if_false, List.map_cons, List.mem_cons] at hx ⊢
      rcases hx with hx | hx
      · exact Or.inl hx
      · exact Or.inr (ih x hx)

theorem nodupKeys_apop {α β : Type} [DecidableEq α]
    (l : List (α × β)) (k : α) (h : NodupKeys l) :
    NodupKeys (apop l k) := by
  induction l with
  | nil => exact h
  | cons p rest ih =>
    rw [NodupKeys, List.map_cons, List.nodup_cons] at h
    by_cases hk : k = p.1
    · rw [NodupKeys]
      simp only [apop, hk, if_pos rfl]
      exact h.2
    · rw [NodupKeys]
      simp only [apop, hk, if_false, List.map_cons, List.nodup_cons]
      exact ⟨fun hmem => h.1 (keys_apop_subset rest k _ hmem), ih h.2⟩

/-! ### Lemmas: Python-set operations -/

theorem mem_sadd {α : Type} [DecidableEq α] (l : List α) (x y : α) :
    x ∈ sadd l y ↔ x ∈ l ∨ x = y := by
  by_cases h : y ∈ l
  · simp only [sadd, if_pos h]
    constructor
    · exact Or.inl
    · rintro (hx | rfl) <;> assumption
  · simp [sadd, if_neg h]

theorem mem_sdel {α : Type} [DecidableEq α] (l : List α) (x y : α) :
    x ∈ sdel l y ↔ x ∈ l ∧ x ≠ y := by
  simp [sdel]

theorem sadd_of_mem {α : Type} [DecidableEq α] (l : List α) (y : α)
    (h : y ∈ l) : sadd l y = l := by
  simp [sadd, h]

theorem sdel_of_not_mem {α : Type} [DecidableEq α] (l : List α) (y : α)
    (h : y ∉ l) : sdel l y = l := by
  rw [sdel, List.filter_eq_self]
  intro a ha
  simp only [ne_eq, decide_eq_true_eq]
  rintro rfl
  exact h ha

/-! ### Lemmas: room manager -/

theorem alookup_joinRoom_self (sid : Sid) (r : String)
    (rooms : List (String × List Sid)) :
    alookup (joinRoom sid r rooms) r
      = some (sadd ((alookup rooms r).getD []) sid) := by
  unfold joinRoom
  cases h : alookup rooms r with
  | none =>
    rw [alookup_append_of_none rooms _ r h]
    simp [alookup, sadd]
  | some ms =>
    simp [alookup_aset_self, h]

theorem alookup_joinRoom_ne (sid : Sid) (r a : String)
    (rooms : List (String × List Sid)) (hne : a ≠ r) :
    alookup (joinRoom sid r rooms) a = alookup rooms a := by
  unfold joinRoom
  cases h : alookup rooms r with
  | none =>
    cases h2 : alookup rooms a with
    | none =>
      rw [alookup_append_of_none rooms _ a h2]
      simp [alookup, hne]
    | some ms => rw [alookup_append_of_some rooms _ a ms h2]
  | some ms => rw [alookup_aset_ne rooms r a _ hne]

theorem alookup_leaveRoom_self (sid : Sid) (r : String)
    (rooms : List (String × List Sid)) :
    alookup (leaveRoom sid r rooms) r
      = (alookup rooms r).map (fun ms => sdel ms sid) := by
  unfold leaveRoom
  cases h : alookup rooms r with
  | none => simp [h]
  | some ms => simp [alookup_aset_self, h]

theorem alookup_leaveRoom_ne (sid : Sid) (r a : String)
    (rooms : List (String × List Sid)) (hne : a ≠ r) :
    alookup (leaveRoom sid r rooms) a = alookup rooms a := by
  unfold leaveRoom
  cases h : alookup rooms r with
  | none => rfl
  | some ms => rw [alookup_aset_ne rooms r a _ hne]

theorem alookup_serverCleanup (sid : Sid) (r : String)
    (rooms : List (String × List Sid)) :
    alookup (serverCleanup sid rooms) r
      = (alookup rooms r).map (fun ms => sdel ms sid) := by
  induction rooms with
  | nil => simp [serverCleanup, alookup]
  | cons p rest ih =>
    by_cases h : r = p.1
    · simp [serverCleanup, alookup, h]
    · simp only [serverCleanup, List.map_cons, alookup, h, if_false]
      simpa [serverCleanup] using ih

/-- Membership in the fan-out set after a `joinRoom`. -/
theorem mem_membersOf_joinRoom (sid x : Sid) (r a : String)
    (rooms : List (String × List Sid)) :
    x ∈ membersOf (joinRoom sid r rooms) a
      ↔ (x ∈ membersOf rooms a ∨ (a = r ∧ x = sid)) := by
  by_cases h : a = r
  · subst h
    rw [membersOf]
    simp only [alookup_joinRoom_self, Option.getD_some]
    rw [mem_sadd]
    simp [membersOf]
  · rw [membersOf, membersOf]
    simp only [alookup_joinRoom_ne sid r a rooms h, h, false_and, or_false]

/-- Membership in the fan-out set after a `leaveRoom`. -/
theorem mem_membersOf_leaveRoom (sid x : Sid) (r a : String)
    (rooms : List (String × List Sid)) :
    x ∈ membersOf (leaveRoom sid r rooms) a
      ↔ (x ∈ membersOf rooms a ∧ ¬(a = r ∧ x = sid)) := by
  by_cases h : a = r
  · subst h
    rw [membersOf, membersOf]
    rw [alookup_leaveRoom_self]
    cases h2 : alookup rooms a with
    | none => simp
    | some ms =>
      simp only [Option.map_some', Option.getD_some]
      rw [mem_sdel]
      simp
  · rw [membersOf, membersOf]
    rw [alookup_leaveRoom_ne sid r a rooms h]
    simp [h]

/-- Membership in the fan-out set after the disconnect cleanup. -/
theorem mem_membersOf_serverCleanup (sid x : Sid) (a : String)
    (rooms : List (String × List Sid)) :
    x ∈ membersOf (serverCleanup sid rooms) a
      ↔ (x ∈ membersOf rooms a ∧ x ≠ sid) := by
  rw [membersOf, membersOf]
  rw [alookup_serverCleanup]
  cases h2 : alookup rooms a with
  | none => simp
  | some ms =>
    simp only [Option.map_some', Option.getD_some]
    rw [mem_sdel]

/-! ### Lemmas: emit recipients -/

theorem recipients_toRoom_none (st : ChatState) (r : String) :
    recipients st (.toRoom r none) = roomMembers st r := by
  rw [recipients, List.filter_eq_self]
  intro a _
  simp

theorem mem_recipients_toRoom (st : ChatState) (r : String)
    (skip : Option Sid) (x : Sid) :
    x ∈ recipients st (.toRoom r skip) ↔ x ∈ roomMembers st r ∧ some x ≠ skip := by
  rw [recipients, List.mem_filter]
  simp

/-! ### Lemmas: Python `strip` -/

theorem dropWhile_idem {α : Type} (p : α → Bool) (l : List α) :
    (l.dropWhile p).dropWhile p = l.dropWhile p := by
  induction l with
  | nil => rfl
  | cons a t ih =>
    by_cases h : p a <;> simp [List.dropWhile_cons, h, ih]

theorem head?_dropWhile_not {α : Type} (p : α → Bool) (l : List α) (a : α)
    (h : (l.dropWhile p).head? = some a) : p a = false := by
  induction l with
  | nil => simp [List.dropWhile] at h
  | cons b t ih =>
    by_cases hb : p b
    · rw [List.dropWhile_cons, if_pos hb] at h
      exact ih h
    · rw [List.dropWhile_cons, if_neg hb] at h
      simp only [List.head?_cons, Option.some.injEq] at h
      subst h
      simpa using hb

theorem dropWhile_eq_self_of_head {α : Type} (p : α → Bool) (l : List α)
    (h : ∀ a, l.head? = some a → p a = false) : l.dropWhile p = l := by
  cases l with
  | nil => rfl
  | cons a t =>
    rw [List.dropWhile_cons, if_neg]
    simp [h a rfl]

theorem getLast?_dropWhile {α : Type} (p : α → Bool) (l : List α)
    (h : l.dropWhile p ≠ []) : (l.dropWhile p).getLast? = l.getLast? := by
  induction l with
  | nil => simp [List.dropWhile] at h
  | cons a t ih =>
    by_cases ha : p a
    · rw [List.dropWhile_cons, if_pos ha] at h ⊢
      rw [ih h]
      have ht : t ≠ [] := by
        intro he
        subst he
        simp [List.dropWhile] at h
      obtain ⟨b, t2, rfl⟩ := List.exists_cons_of_ne_nil ht
      rw [List.getLast?_cons_cons]
    · rw [List.dropWhile_cons, if_neg ha]

/-- `stripChars` is idempotent: stripping an already-stripped string
changes nothing. -/
theorem stripChars_idem (l : List Char) :
    stripChars (stripChars l) = stripChars l := by
  unfold stripChars
  set m := (l.dropWhile isPySpace).reverse.dropWhile isPySpace with hm
  have h1 : m.reverse.dropWhile isPySpace = m.reverse := by
    apply dropWhile_eq_self_of_head
    intro a ha
    rw [List.head?_reverse] at ha
    have hne : m ≠ [] := by
      intro he
      rw [he] at ha
      simp at ha
    rw [hm] at ha hne
    rw [getLast?_dropWhile _ _ hne] at ha
    rw [List.getLast?_reverse] at ha
    exact head?_dropWhile_not _ _ _ ha
  rw [h1, List.reverse_reverse, hm, dropWhile_idem]

/-- `pyStrip` is idempotent. -/
theorem pyStrip_idem (s : String) : pyStrip (pyStrip s) = pyStrip s := by
  unfold pyStrip
  exact congrArg String.mk (stripChars_idem s.data)

/-! ### Lemmas: handler frames and shapes -/

/-- `handle_send_message` never touches the session registry, the room
manager or the typing map. -/
theorem send_frame (ul : UserLookup) (sid : Sid) (data : SendData)
    (now : Int) (ok : Bool) (st : ChatState) :
    (handle_send_message ul sid data now ok st).1.connected_users = st.connected_users ∧
    (handle_send_message ul sid data now ok st).1.server_rooms = st.server_rooms ∧
    (handle_send_message ul sid data now ok st).1.user_typing = st.user_typing := by
  unfold handle_send_message
  repeat' split
  all_goals simp

/-- Every run of `handle_send_message` either rejects with exactly one
private `send_error` to the caller and persists nothing, or (only when
the commit succeeded) appends exactly one message and emits exactly one
`new_message` room broadcast. -/
theorem send_shape (ul : UserLookup) (sid : Sid) (data : SendData)
    (now : Int) (ok : Bool) (st : ChatState) :
    (∃ msg st2, handle_send_message ul sid data now ok st = (st2, [sendErrorEvent msg sid])
       ∧ st2.messages = st.messages) ∨
    (∃ m st2, handle_send_message ul sid data now ok st
        = (st2, [{ name := "new_message", payload := newMessagePayload ul m,
                   target := .toRoom (roomName m.group_chat_id) none }])
       ∧ st2.messages = st.messages ++ [m] ∧ ok = true) := by
  unfold handle_send_message
  repeat' split
  all_goals first
    | exact Or.inl ⟨_, _, rfl, rfl⟩
    | (rename_i hok; exact Or.inr ⟨_, _, rfl, rfl, hok⟩)

/-- The typing handlers never touch the registry, the room manager, the
rate store or the message table; nor does their raising path. -/
theorem typing_frame (sid : Sid) (g : Option GroupId) (st : ChatState) :
    (∀ r, handle_typing sid g st = .ok r →
       r.1.connected_users = st.connected_users ∧
       r.1.server_rooms = st.server_rooms ∧
       r.1.rate_limit_store = st.rate_limit_store ∧
       r.1.messages = st.messages) ∧
    (∀ r, handle_stop_typing sid g st = .ok r →
       r.1.connected_users = st.connected_users ∧
       r.1.server_rooms = st.server_rooms ∧
       r.1.rate_limit_store = st.rate_limit_store ∧
       r.1.messages = st.messages) := by
  constructor
  · intro r hr
    unfold handle_typing at hr
    repeat' split at hr
    all_goals cases hr
    all_goals simp
  · intro r hr
    unfold handle_stop_typing at hr
    repeat' split at hr
    all_goals cases hr
    all_goals simp

/-! ### The membership-transpose invariant -/

/-- The Socket.IO membership view is the exact transpose of the
sessions' joined-room sets. -/
def MemInv (st : ChatState) : Prop :=
  ∀ r s, s ∈ roomMembers st r
    ↔ ∃ info, alookup st.connected_users s = some info ∧ r ∈ info.rooms

/-- Induction invariant: distinct registry keys and the transpose. -/
def ReachInv (st : ChatState) : Prop :=
  NodupKeys st.connected_users ∧ MemInv st

theorem reachInv_init : ReachInv initState := by
  refine ⟨List.nodup_nil, ?_⟩
  intro r s
  constructor
  · intro hin
    simp [roomMembers, membersOf, alookup, initState] at hin
  · rintro ⟨info, hinfo, -⟩
    simp [alookup, initState] at hinfo

theorem step_reachInv {decode : TokenDecoder} {ul : UserLookup}
    {st st2 : ChatState} (h : Step decode ul st st2) (hi : ReachInv st) :
    ReachInv st2 := by
  obtain ⟨hnd, hmem⟩ := hi
  cases h with
  | connect sid token now fresh =>
    cases token with
    | none => exact ⟨hnd, hmem⟩
    | some tok =>
      cases hdec : decode tok with
      | none =>
        simp only [handle_connect, hdec]
        exact ⟨hnd, hmem⟩
      | some sub =>
        cases sub with
        | none =>
          simp only [handle_connect, hdec]
          exact ⟨hnd, hmem⟩
        | some uid =>
          by_cases hz : uid = 0
          · simp only [handle_connect, hdec, if_pos hz]
            exact ⟨hnd, hmem⟩
          · simp only [handle_connect, hdec, if_neg hz]
            refine ⟨nodupKeys_aset _ _ _ hnd, ?_⟩
            intro r s
            by_cases hs : s = sid
            · subst hs
              constructor
              · intro hin
                obtain ⟨info, hinfo, -⟩ := (hmem r s).mp hin
                rw [fresh] at hinfo
                cases hinfo
              · rintro ⟨info, hinfo, hr⟩
                rw [alookup_aset_self] at hinfo
                injection hinfo with hh
                subst hh
                simp at hr
            · simp only [alookup_aset_ne _ _ _ _ hs]
              exact hmem r s
  | disconnect sid =>
    refine ⟨nodupKeys_apop _ _ hnd, ?_⟩
    intro r s
    simp only [handle_disconnect]
    show s ∈ membersOf (serverCleanup sid st.server_rooms) r ↔ _
    rw [mem_membersOf_serverCleanup]
    by_cases hs : s = sid
    · subst hs
      simp only [alookup_apop_self _ _ hnd]
      constructor
      · rintro ⟨-, hne⟩
        exact absurd rfl hne
      · rintro ⟨info, hinfo, -⟩
        cases hinfo
    · simp only [alookup_apop_ne _ _ _ hs]
      constructor
      · rintro ⟨hin, -⟩
        exact (hmem r s).mp hin
      · intro hex
        exact ⟨(hmem r s).mpr hex, hs⟩
  | active sid now e live =>
    cases e with
    | join_group gopt =>
      cases gopt with
      | none => exact ⟨hnd, hmem⟩
      | some g =>
        cases hlive : alookup st.connected_users sid with
        | none => rw [hlive] at live; cases live
        | some info =>
          simp only [dispatch, handle_join_group, hlive]
          refine ⟨nodupKeys_aset _ _ _ hnd, ?_⟩
          intro r s
          show s ∈ membersOf (joinRoom sid (roomName g) st.server_rooms) r ↔ _
          rw [mem_membersOf_joinRoom]
          by_cases hs : s = sid
          · subst hs
            simp only [alookup_aset_self]
            constructor
            · rintro (hin | ⟨hr, -⟩)
              · obtain ⟨info2, hinfo2, hr2⟩ := (hmem r s).mp hin
                rw [hlive] at hinfo2
                injection hinfo2 with hh
                subst hh
                exact ⟨_, rfl, (mem_sadd _ _ _).mpr (Or.inl hr2)⟩
              · exact ⟨_, rfl, (mem_sadd _ _ _).mpr (Or.inr hr)⟩
            · rintro ⟨i, hi, hr⟩
              injection hi with hh
              subst hh
              rw [mem_sadd] at hr
              rcases hr with hr | hr
              · exact Or.inl ((hmem r s).mpr ⟨info, hlive, hr⟩)
              · exact Or.inr ⟨hr, trivial⟩
          · simp only [alookup_aset_ne _ _ _ _ hs]
            constructor
            · rintro (hin | ⟨-, hssid⟩)
              · exact (hmem r s).mp hin
              · exact absurd hssid hs
            · intro hex
              exact Or.inl ((hmem r s).mpr hex)
    | leave_group gopt =>
      cases gopt with
      | none => exact ⟨hnd, hmem⟩
      | some g =>
        cases hlive : alookup st.connected_users sid with
        | none => rw [hlive] at live; cases live
        | some info =>
          simp only [dispatch, handle_leave_group, hlive]
          refine ⟨nodupKeys_aset _ _ _ hnd, ?_⟩
          intro r s
          show s ∈ membersOf (leaveRoom sid (roomName g) st.server_rooms) r ↔ _
          rw [mem_membersOf_leaveRoom]
          by_cases hs : s = sid
          · subst hs
            simp only [alookup_aset_self]
            constructor
            · rintro ⟨hin, hnot⟩
              obtain ⟨info2, hinfo2, hr2⟩ := (hmem r s).mp hin
              rw [hlive] at hinfo2
              injection hinfo2 with hh
              subst hh
              refine ⟨_, rfl, (mem_sdel _ _ _).mpr ⟨hr2, ?_⟩⟩
              intro hr
              exact hnot ⟨hr, trivial⟩
            · rintro ⟨i, hi, hr⟩
              injection hi with hh
              subst hh
              rw [mem_sdel] at hr
              refine ⟨(hmem r s).mpr ⟨info, hlive, hr.1⟩, ?_⟩
              rintro ⟨hrr, -⟩
              exact hr.2 hrr
          · simp only [alookup_aset_ne _ _ _ _ hs]
            constructor
            · rintro ⟨hin, -⟩
              exact (hmem r s).mp hin
            · intro hex
              refine ⟨(hmem r s).mpr hex, ?_⟩
              rintro ⟨-, hssid⟩
              exact hs hssid
    | send_message d ok =>
      obtain ⟨hcu, hsr, -⟩ := send_frame ul sid d now ok st
      constructor
      · show NodupKeys (handle_send_message ul sid d now ok st).1.connected_users
        rw [hcu]
        exact hnd
      · intro r s
        show s ∈ roomMembers (handle_send_message ul sid d now ok st).1 r ↔
          ∃ info, alookup (handle_send_message ul sid d now ok st).1.connected_users s
              = some info ∧ r ∈ info.rooms
        rw [roomMembers, hsr, hcu]
        exact hmem r s
    | typing gopt =>
      cases gopt with
      | none => exact ⟨hnd, hmem⟩
      | some g =>
        cases hd : handle_typing sid (some g) st with
        | error e =>
          simp only [dispatch, hd]
          exact ⟨hnd, hmem⟩
        | ok res =>
          obtain ⟨hcu, hsr, -, -⟩ := (typing_frame sid (some g) st).1 res hd
          simp only [dispatch, hd]
          constructor
          · rw [NodupKeys, hcu]
            exact hnd
          · intro r s
            rw [roomMembers, hsr, hcu]
            exact hmem r s
    | stop_typing gopt =>
      cases gopt with
      | none => exact ⟨hnd, hmem⟩
      | some g =>
        cases hd : handle_stop_typing sid (some g) st with
        | error e =>
          simp only [dispatch, hd]
          exact ⟨hnd, hmem⟩
        | ok res =>
          obtain ⟨hcu, hsr, -, -⟩ := (typing_frame sid (some g) st).2 res hd
          simp only [dispatch, hd]
          constructor
          · rw [NodupKeys, hcu]
            exact hnd
          · intro r s
            rw [roomMembers, hsr, hcu]
            exact hmem r s

theorem reachable_reachInv {decode : TokenDecoder} {ul : UserLookup}
    {st : ChatState} (h : Reachable decode ul st) : ReachInv st := by
  induction h with
  | refl => exact reachInv_init
  | tail hst hstep ih => exact step_reachInv hstep ih

/-! ### Claim theorems -/

/-- Fold `_is_rate_limited` over a list of call times for one key,
collecting the per-call results (used for concrete window scenarios). -/
def rateCalls (uid : UserId) (gid : GroupId) (times : List Int)
    (store : RateStore) : List Bool × RateStore :=
  match times with
  | [] => ([], store)
  | t :: rest =>
    let r := isRateLimited uid gid t store
    let r2 := rateCalls uid gid rest r.2
    (r.1 :: r2.1, r2.2)

/-- Claim C2: on every call the rate limiter first prunes timestamps at
least 60 seconds old, denies without recording exactly when the pruned
list has 10 or more entries, and otherwise records the call time and
allows; the stored list for any key never exceeds length 10; a first
call on an unknown key is allowed; 10 sends inside the 60-second window
are allowed, the 11th is denied, and a send is allowed again once 60
seconds have elapsed. -/
theorem C2_rate_limiter :
    (∀ uid gid now store,
       isRateLimited uid gid now store
         = if 10 ≤ (pruneWindow now ((alookup store (uid, gid)).getD [])).length
           then (true, aset store (uid, gid)
                  (pruneWindow now ((alookup store (uid, gid)).getD [])))
           else (false, aset store (uid, gid)
                  (pruneWindow now ((alookup store (uid, gid)).getD []) ++ [now]))) ∧
    (∀ now (ts : List Int) t, t ∈ pruneWindow now ts ↔ t ∈ ts ∧ now - t < 60) ∧
    (∀ uid gid now store,
       (∀ k ts, alookup store k = some ts → ts.length ≤ 10) →
       ∀ k ts, alookup (isRateLimited uid gid now store).2 k = some ts →
         ts.length ≤ 10) ∧
    (∀ uid gid now store, alookup store (uid, gid) = none →
       (isRateLimited uid gid now store).1 = false) ∧
    ((rateCalls 7 5 (List.replicate 11 0) []).1
        = List.replicate 10 false ++ [true] ∧
     (isRateLimited 7 5 60 (rateCalls 7 5 (List.replicate 11 0) []).2).1 = false) := by
  refine ⟨?_, ?_, ?_, ?_, ?_⟩
  · intro uid gid now store
    rfl
  · intro now ts t
    simp [pruneWindow]
  · intro uid gid now store hstore k ts hk
    have hlen : (pruneWindow now ((alookup store (uid, gid)).getD [])).length ≤ 10 := by
      cases hold : alookup store (uid, gid) with
      | none => simp [pruneWindow]
      | some ts0 =>
        calc (pruneWindow now ((some ts0).getD [])).length
            ≤ ts0.length := by simpa [pruneWindow] using List.length_filter_le _ ts0
          _ ≤ 10 := hstore _ ts0 hold
    by_cases hk2 : k = (uid, gid)
    · subst hk2
      unfold isRateLimited at hk
      by_cases hq : 10 ≤ (pruneWindow now ((alookup store (uid, gid)).getD [])).length
      · rw [if_pos hq] at hk
        simp only [alookup_aset_self, Option.some.injEq] at hk
        subst hk
        exact hlen
      · rw [if_neg hq] at hk
        simp only [alookup_aset_self, Option.some.injEq] at hk
        subst hk
        simp only [List.length_append, List.length_singleton]
        omega
    · unfold isRateLimited at hk
      by_cases hq : 10 ≤ (pruneWindow now ((alookup store (uid, gid)).getD [])).length
      · rw [if_pos hq] at hk
        rw [alookup_aset_ne _ _ _ _ hk2] at hk
        exact hstore k ts hk
      · rw [if_neg hq] at hk
        rw [alookup_aset_ne _ _ _ _ hk2] at hk
        exact hstore k ts hk
  · intro uid gid now store h
    simp [isRateLimited, h, pruneWindow]
  · constructor
    · decide
    · decide

/-- Witness for C2: the stored-length bound evaluated at a concrete
call on the empty store. -/
theorem C2_rate_limiter_witness : ([(0 : Int)]).length ≤ 10 :=
  C2_rate_limiter.2.2.1 7 5 0 [] (fun _ _ h => Option.noConfusion h)
    (7, 5) [0] (by decide)

/-- Claim C3: a connect with a missing token, an undecodable token, or a
decoded payload without a (truthy) subject claim is refused with no
session entry created; a valid connect registers the session with an
empty room set and emits one `connected` acknowledgment, addressed to
the connecting sid only, carrying the sid and user id. -/
theorem C3_connect_validation :
    (∀ decode sid now st,
       handle_connect decode none sid now st = (st, [], false)) ∧
    (∀ decode tok sid now st, decode tok = none →
       handle_connect decode (some tok) sid now st = (st, [], false)) ∧
    (∀ decode tok sid now st, decode tok = some none →
       handle_connect decode (some tok) sid now st = (st, [], false)) ∧
    (∀ decode tok sid now st, decode tok = some (some 0) →
       handle_connect decode (some tok) sid now st = (st, [], false)) ∧
    (∀ decode tok sid now st uid, decode tok = some (some uid) → uid ≠ 0 →
       handle_connect decode (some tok) sid now st
         = ({ st with connected_users := aset st.connected_users sid ⟨uid, [], now⟩ },
            [{ name := "connected",
               payload := [("status", .str "success"), ("sid", .nat sid),
                           ("userId", .nat uid)],
               target := .toSid sid }],
            true)) := by
  refine ⟨?_, ?_, ?_, ?_, ?_⟩
  · intro decode sid now st
    rfl
  · intro decode tok sid now st h
    simp [handle_connect, h]
  · intro decode tok sid now st h
    simp [handle_connect, h]
  · intro decode tok sid now st h
    simp [handle_connect, h]
  · intro decode tok sid now st uid h hz
    simp [handle_connect, h, hz]

/-- A decoder fixture: every token decodes with subject claim `9`. -/
def dec9 : TokenDecoder := fun _ => some (some 9)

/-- Witness for C3: the success branch evaluated concretely. -/
theorem C3_connect_validation_witness :
    handle_connect dec9 (some "tok") 1 5 initState
      = ({ initState with connected_users := aset initState.connected_users 1 ⟨9, [], 5⟩ },
         [{ name := "connected",
            payload := [("status", .str "success"), ("sid", .nat 1),
                        ("userId", .nat 9)],
            target := .toSid 1 }],
         true) :=
  C3_connect_validation.2.2.2.2 dec9 "tok" 1 5 initState 9 rfl (by decide)

/-- The defining equation of the rate limiter, stated without lets. -/
theorem isRateLimited_eq (uid : UserId) (gid : GroupId) (now : Int)
    (store : RateStore) :
    isRateLimited uid gid now store
      = if 10 ≤ (pruneWindow now ((alookup store (uid, gid)).getD [])).length
        then (true, aset store (uid, gid)
               (pruneWindow now ((alookup store (uid, gid)).getD [])))
        else (false, aset store (uid, gid)
               (pruneWindow now ((alookup store (uid, gid)).getD []) ++ [now])) := rfl

/-- Claim C1: when a validated, in-quota send hits a failing commit, the
handler emits no broadcast and exactly one private error to the sender,
and the message table is unchanged; and in general a `new_message`
broadcast happens only when the commit succeeded and the message was
appended to the table. -/
theorem C1_persist_before_broadcast :
    (∀ ul sid data now st info g c,
       alookup st.connected_users sid = some info → info.user_id ≠ 0 →
       pyOrGroup data.groupId data.group_id = some g →
       data.content = some c → pyStrip c ≠ "" →
       (isRateLimited info.user_id g now st.rate_limit_store).1 = false →
       handle_send_message ul sid data now false st
         = ({ st with rate_limit_store :=
                (isRateLimited info.user_id g now st.rate_limit_store).2 },
            [sendErrorEvent "PersistenceError: database commit failed" sid])) ∧
    (∀ ul sid data now ok st,
       (∃ ev ∈ (handle_send_message ul sid data now ok st).2,
          ev.name = "new_message") →
       ok = true ∧ ∃ m, (handle_send_message ul sid data now ok st).1.messages
           = st.messages ++ [m]) := by
  constructor
  · intro ul sid data now st info g c hauth huid hg hc hne hrl
    unfold handle_send_message
    simp only [hauth, if_neg huid, hg, hc, if_neg hne]
    cases hr : isRateLimited info.user_id g now st.rate_limit_store with
    | mk b store2 =>
      rw [hr] at hrl
      have hb : b = false := hrl
      subst hb
      rfl
  · rintro ul sid data now ok st ⟨ev, hev, hname⟩
    rcases send_shape ul sid data now ok st with
      ⟨msg, st2, heq, hmsgs⟩ | ⟨m, st2, heq, hmsgs, hok⟩
    · rw [heq] at hev
      rw [List.mem_singleton] at hev
      subst hev
      simp [sendErrorEvent] at hname
    · refine ⟨hok, m, ?_⟩
      rw [heq]
      exact hmsgs

/-- A user-profile lookup fixture: no profile rows. -/
def ul0 : UserLookup := fun _ => none

/-- A fixture state: users 9 and 8 connected on sids 1 and 2, both
joined to room `group_5`. -/
def stFix : ChatState :=
  { connected_users := [(1, ⟨9, ["group_5"], 0⟩), (2, ⟨8, ["group_5"], 0⟩)],
    server_rooms := [("group_5", [1, 2])],
    user_typing := [], rate_limit_store := [], messages := [] }

/-- Witness for C1: the failing-commit branch evaluated concretely. -/
theorem C1_persist_before_broadcast_witness :
    handle_send_message ul0 1 ⟨some 5, none, some "hi"⟩ 100 false stFix
      = ({ stFix with rate_limit_store :=
             (isRateLimited 9 5 100 stFix.rate_limit_store).2 },
         [sendErrorEvent "PersistenceError: database commit failed" 1]) :=
  C1_persist_before_broadcast.1 ul0 1 ⟨some 5, none, some "hi"⟩ 100 stFix
    ⟨9, ["group_5"], 0⟩ 5 "hi" rfl (by decide) rfl rfl (by decide) rfl

/-- Claim C7: a send whose content is whitespace-only after trimming is
rejected with a single private error and leaves the whole state (message
table included) unchanged; every message ever present in the table has
non-empty, already-trimmed content. -/
theorem C7_whitespace_content :
    (∀ ul sid data now ok st c, data.content = some c → pyStrip c = "" →
       ∃ msg, handle_send_message ul sid data now ok st
         = (st, [sendErrorEvent msg sid])) ∧
    (∀ ul sid data now ok st m,
       m ∈ (handle_send_message ul sid data now ok st).1.messages →
       m ∈ st.messages ∨ (pyStrip m.content = m.content ∧ m.content ≠ "")) := by
  constructor
  · intro ul sid data now ok st c hc hstrip
    unfold handle_send_message
    rw [hc]
    repeat' split
    all_goals first
      | exact ⟨_, rfl⟩
      | simp_all
  · intro ul sid data now ok st m hm
    unfold handle_send_message at hm
    repeat' split at hm
    all_goals first
      | exact Or.inl hm
      | (rcases List.mem_append.mp hm with hm2 | hm2
         · exact Or.inl hm2
         · rw [List.mem_singleton] at hm2
           subst hm2
           exact Or.inr ⟨pyStrip_idem _, by assumption⟩)

/-- Witness for C7: the message persisted by a concrete successful send
has non-empty trimmed content. -/
theorem C7_whitespace_content_witness :
    ({ id := 1, group_chat_id := 5, sender_id := 9, content := "hi",
       message_type := "text", created_at := 100 } : GroupMessage)
        ∈ stFix.messages
    ∨ (pyStrip ({ id := 1, group_chat_id := 5, sender_id := 9,
                  content := "hi", message_type := "text",
                  created_at := 100 } : GroupMessage).content
          = ({ id := 1, group_chat_id := 5, sender_id := 9, content := "hi",
               message_type := "text",
               created_at := 100 } : GroupMessage).content
       ∧ ({ id := 1, group_chat_id := 5, sender_id := 9, content := "hi",
            message_type := "text",
            created_at := 100 } : GroupMessage).content ≠ "") :=
  C7_whitespace_content.2 ul0 1 ⟨some 5, none, some " hi "⟩ 100 true stFix
    ({ id := 1, group_chat_id := 5, sender_id := 9, content := "hi",
       message_type := "text", created_at := 100 }) (by decide)

/-- Claim C10: a validated send that passes the rate check appends
exactly the call timestamp to its `(user, group)` window, and keeps it
even when the commit then fails; a send denied by the rate limiter
appends nothing (the window is only pruned). -/
theorem C10_rate_quota_frame :
    ∀ ul sid data now st info g c,
      alookup st.connected_users sid = some info → info.user_id ≠ 0 →
      pyOrGroup data.groupId data.group_id = some g →
      data.content = some c → pyStrip c ≠ "" →
      (∀ ok, (isRateLimited info.user_id g now st.rate_limit_store).1 = false →
         (handle_send_message ul sid data now ok st).1.rate_limit_store
           = aset st.rate_limit_store (info.user_id, g)
               (pruneWindow now
                 ((alookup st.rate_limit_store (info.user_id, g)).getD [])
                ++ [now])) ∧
      (∀ ok, (isRateLimited info.user_id g now st.rate_limit_store).1 = true →
         (handle_send_message ul sid data now ok st).1.rate_limit_store
           = aset st.rate_limit_store (info.user_id, g)
               (pruneWindow now
                 ((alookup st.rate_limit_store (info.user_id, g)).getD []))) := by
  intro ul sid data now st info g c hauth huid hg hc hne
  constructor
  · intro ok hfalse
    by_cases hq : 10 ≤ (pruneWindow now
        ((alookup st.rate_limit_store (info.user_id, g)).getD [])).length
    · rw [isRateLimited_eq, if_pos hq] at hfalse
      simp at hfalse
    · have hr : isRateLimited info.user_id g now st.rate_limit_store
          = (false, aset st.rate_limit_store (info.user_id, g)
              (pruneWindow now
                ((alookup st.rate_limit_store (info.user_id, g)).getD [])
               ++ [now])) := by
        rw [isRateLimited_eq, if_neg hq]
      unfold handle_send_message
      simp only [hauth, if_neg huid, hg, hc, if_neg hne, hr]
      cases ok <;> rfl
  · intro ok htrue
    by_cases hq : 10 ≤ (pruneWindow now
        ((alookup st.rate_limit_store (info.user_id, g)).getD [])).length
    · have hr : isRateLimited info.user_id g now st.rate_limit_store
          = (true, aset st.rate_limit_store (info.user_id, g)
              (pruneWindow now
                ((alookup st.rate_limit_store (info.user_id, g)).getD []))) := by
        rw [isRateLimited_eq, if_pos hq]
      unfold handle_send_message
      simp only [hauth, if_neg huid, hg, hc, if_neg hne, hr]
      try rfl
    · rw [isRateLimited_eq, if_neg hq] at htrue
      simp at htrue

/-- Witness for C10: the allowed-then-failing-commit case evaluated
concretely: the timestamp is still recorded. -/
theorem C10_rate_quota_frame_witness :
    (handle_send_message ul0 1 ⟨some 5, none, some "hi"⟩ 100 false stFix).1.rate_limit_store
      = aset stFix.rate_limit_store (9, 5)
          (pruneWindow 100 ((alookup stFix.rate_limit_store (9, 5)).getD [])
           ++ [100]) :=
  (C10_rate_quota_frame ul0 1 ⟨some 5, none, some "hi"⟩ 100 stFix
     ⟨9, ["group_5"], 0⟩ 5 "hi" rfl (by decide) rfl rfl (by decide)).1
    false rfl

theorem filter_skip_some (l : List Sid) (s : Sid) :
    l.filter (fun x => some x ≠ some s) = l.filter (fun x => x ≠ s) := by
  induction l with
  | nil => rfl
  | cons a t ih =>
    by_cases h : a = s <;> simp [List.filter_cons, h, ih]

/-- Claim C4: a typing event is broadcast to the room with the sender's
sid skipped (the sender never receives it), while a successful send's
`new_message` broadcast goes to the room with no sid skipped, so the
sender receives its own message whenever it is a member of the room. -/
theorem C4_typing_excludes_sender :
    ∀ sid st info g,
      alookup st.connected_users sid = some info → info.user_id ≠ 0 →
      (∃ st2, handle_typing sid (some g) st
          = .ok (st2, [{ name := "user_typing",
                         payload := [("user_id", .nat info.user_id),
                                     ("group_id", .int g)],
                         target := .toRoom (roomName g) (some sid) }])
        ∧ recipients st2 (.toRoom (roomName g) (some sid))
            = (roomMembers st (roomName g)).filter (fun x => x ≠ sid)
        ∧ sid ∉ recipients st2 (.toRoom (roomName g) (some sid))) ∧
      (∀ ul data now c,
         pyOrGroup data.groupId data.group_id = some g →
         data.content = some c → pyStrip c ≠ "" →
         (isRateLimited info.user_id g now st.rate_limit_store).1 = false →
         ∃ m st2,
           handle_send_message ul sid data now true st
             = (st2, [{ name := "new_message",
                        payload := newMessagePayload ul m,
                        target := .toRoom (roomName g) none }])
           ∧ recipients st2 (.toRoom (roomName g) none)
               = roomMembers st (roomName g)
           ∧ (sid ∈ roomMembers st (roomName g) →
                sid ∈ recipients st2 (.toRoom (roomName g) none))) := by
  intro sid st info g hauth huid
  constructor
  · refine ⟨{ st with user_typing := aset st.user_typing g (sadd ((alookup st.user_typing g).getD []) info.user_id) }, ?_, ?_, ?_⟩
    · unfold handle_typing
      simp only [hauth, if_neg huid]
    · show (roomMembers st (roomName g)).filter _ = _
      exact filter_skip_some _ _
    · intro hmem
      rw [mem_recipients_toRoom] at hmem
      exact hmem.2 rfl
  · intro ul data now c hg hc hne hrl
    have hsend : handle_send_message ul sid data now true st
        = ({ st with
               rate_limit_store :=
                 (isRateLimited info.user_id g now st.rate_limit_store).2,
               messages := st.messages ++
                 [{ id := st.messages.length + 1, group_chat_id := g,
                    sender_id := info.user_id, content := pyStrip c,
                    message_type := "text", created_at := now }] },
           [{ name := "new_message",
              payload := newMessagePayload ul
                { id := st.messages.length + 1, group_chat_id := g,
                  sender_id := info.user_id, content := pyStrip c,
                  message_type := "text", created_at := now },
              target := .toRoom (roomName g) none }]) := by
      unfold handle_send_message
      simp only [hauth, if_neg huid, hg, hc, if_neg hne]
      cases hr : isRateLimited info.user_id g now st.rate_limit_store with
      | mk b store2 =>
        rw [hr] at hrl
        have hb : b = false := hrl
        subst hb
        rfl
    refine ⟨_, _, hsend, ?_, ?_⟩
    · exact recipients_toRoom_none _ _
    · intro hmem
      rw [recipients_toRoom_none]
      exact hmem

/-- Witness for C4: the typing broadcast from sid 1 in the fixture room
reaches exactly the other member. -/
theorem C4_typing_excludes_sender_witness :
    ∃ st2, handle_typing 1 (some 5) stFix
        = .ok (st2, [{ name := "user_typing",
                       payload := [("user_id", .nat 9), ("group_id", .int 5)],
                       target := .toRoom (roomName 5) (some 1) }])
      ∧ recipients st2 (.toRoom (roomName 5) (some 1))
          = (roomMembers stFix (roomName 5)).filter (fun x => x ≠ 1)
      ∧ 1 ∉ recipients st2 (.toRoom (roomName 5) (some 1)) :=
  (C4_typing_excludes_sender 1 stFix ⟨9, ["group_5"], 0⟩ 5 rfl (by decide)).1

/-- Claim C6: at every state reachable by connect, join, leave, send,
typing and disconnect events, the room-membership view equals, for every
room, the set of sids whose session's joined-rooms set contains that
room; and immediately after processing any disconnect the disconnected
sid is in no room's member view. -/
theorem C6_membership_transpose :
    ∀ decode ul st, Reachable decode ul st →
      (∀ r s, s ∈ roomMembers st r
         ↔ ∃ info, alookup st.connected_users s = some info ∧ r ∈ info.rooms) ∧
      (∀ sid r, sid ∉ roomMembers (handle_disconnect sid st).1 r) := by
  intro decode ul st h
  constructor
  · exact (reachable_reachInv h).2
  · intro sid r hmem
    have h2 := (mem_membersOf_serverCleanup sid sid r st.server_rooms).mp hmem
    exact h2.2 rfl

/-- Witness for C6: the transpose evaluated at the reachable state
obtained by a connect followed by a join of group 5. -/
theorem C6_membership_transpose_witness :
    (1 ∈ roomMembers
        (dispatch ul0 1 0 (Event.join_group (some 5))
          (handle_connect dec9 (some "tok") 1 0 initState).1).1 "group_5"
       ↔ ∃ info,
           alookup (dispatch ul0 1 0 (Event.join_group (some 5))
               (handle_connect dec9 (some "tok") 1 0 initState).1).1.connected_users 1
             = some info ∧ "group_5" ∈ info.rooms) :=
  (C6_membership_transpose dec9 ul0 _
      (Relation.ReflTransGen.tail
        (Relation.ReflTransGen.single (Step.connect 1 (some "tok") 0 rfl))
        (Step.active 1 0 (Event.join_group (some 5)) rfl))).1 "group_5" 1

theorem serverCleanup_noop (sid : Sid) (rooms : List (String × List Sid))
    (h : ∀ p ∈ rooms, sid ∉ p.2) : serverCleanup sid rooms = rooms := by
  induction rooms with
  | nil => rfl
  | cons p rest ih =>
    have hrest := ih (fun q hq => h q (List.mem_cons_of_mem p hq))
    simp only [serverCleanup, List.map_cons] at hrest ⊢
    rw [sdel_of_not_mem _ _ (h p (List.mem_cons_self p rest)), hrest]

/-- Claim C9: leaving a room the session has not joined and
disconnecting an unregistered sid leave the state unchanged and raise no
error, and joining an already-joined room is a state no-op. -/
theorem C9_idempotent_ops :
    (∀ sid g st info, alookup st.connected_users sid = some info →
       roomName g ∉ info.rooms → sid ∉ roomMembers st (roomName g) →
       handle_leave_group sid (some g) st
         = .ok (st, [{ name := "left", payload := [("groupId", .int g)],
                       target := .toSid sid }])) ∧
    (∀ sid st, alookup st.connected_users sid = none →
       (∀ p ∈ st.server_rooms, sid ∉ p.2) →
       handle_disconnect sid st = (st, [])) ∧
    (∀ sid g st info, alookup st.connected_users sid = some info →
       roomName g ∈ info.rooms → sid ∈ roomMembers st (roomName g) →
       handle_join_group sid (some g) st
         = .ok (st, [{ name := "joined", payload := [("groupId", .int g)],
                       target := .toSid sid }])) := by
  refine ⟨?_, ?_, ?_⟩
  · intro sid g st info hauth hnotin hnotmem
    obtain ⟨u, rm, ca⟩ := info
    have hsr : leaveRoom sid (roomName g) st.server_rooms = st.server_rooms := by
      cases hl : alookup st.server_rooms (roomName g) with
      | none => simp only [leaveRoom, hl]
      | some ms =>
        have hms : sid ∉ ms := by
          intro hin
          apply hnotmem
          rw [roomMembers, membersOf, hl]
          exact hin
        simp only [leaveRoom, hl]
        rw [sdel_of_not_mem _ _ hms]
        exact aset_of_alookup_eq_some _ _ _ hl
    unfold handle_leave_group
    simp only [hauth, hsr]
    rw [sdel_of_not_mem _ _ hnotin]
    rw [aset_of_alookup_eq_some _ _ _ hauth]
  · intro sid st hauth hrooms
    unfold handle_disconnect
    rw [apop_of_alookup_eq_none _ _ hauth, serverCleanup_noop _ _ hrooms]
  · intro sid g st info hauth hin hmem
    obtain ⟨u, rm, ca⟩ := info
    have hsr : joinRoom sid (roomName g) st.server_rooms = st.server_rooms := by
      cases hl : alookup st.server_rooms (roomName g) with
      | none =>
        rw [roomMembers, membersOf, hl] at hmem
        simp at hmem
      | some ms =>
        have hms : sid ∈ ms := by
          rw [roomMembers, membersOf, hl] at hmem
          exact hmem
        simp only [joinRoom, hl]
        rw [sadd_of_mem _ _ hms]
        exact aset_of_alookup_eq_some _ _ _ hl
    unfold handle_join_group
    simp only [hauth, hsr]
    rw [sadd_of_mem _ _ hin]
    rw [aset_of_alookup_eq_some _ _ _ hauth]

/-- Witness for C9: disconnecting a sid that never connected leaves the
fixture state untouched. -/
theorem C9_idempotent_ops_witness :
    handle_disconnect 3 stFix = (stFix, []) :=
  C9_idempotent_ops.2.1 3 stFix rfl (by decide)

/-- A one-session fixture: sid 1 registered to user 9, no rooms. -/
def stC5 : ChatState :=
  { connected_users := [(1, ⟨9, [], 0⟩)], server_rooms := [],
    user_typing := [], rate_limit_store := [], messages := [] }

/-- Counterexample to C5: a `join_group` event without a groupId raises
inside `handle_join_group` (no try/except there); the default error
handler only logs, so the dispatcher emits zero events to the
originating session — not the single private error event the claim
requires. -/
theorem C5_counterexample :
    handle_join_group 1 none stC5 = .error "TypeError: int() argument is None"
    ∧ dispatch ul0 1 0 (Event.join_group none) stC5 = (stC5, []) :=
  ⟨rfl, rfl⟩

theorem typing_emit_shape :
    ∀ sid gopt st res, handle_typing sid gopt st = .ok res →
      res.2 = [] ∨ ∃ u g, res.2
        = [{ name := "user_typing",
             payload := [("user_id", .nat u), ("group_id", .int g)],
             target := .toRoom (roomName g) (some sid) }] := by
  intro sid gopt st res hd
  unfold handle_typing at hd
  repeat' split at hd
  all_goals cases hd
  all_goals first
    | exact Or.inl rfl
    | exact Or.inr ⟨_, _, rfl⟩

theorem stop_typing_emit_shape :
    ∀ sid gopt st res, handle_stop_typing sid gopt st = .ok res →
      res.2 = [] ∨ ∃ u g, res.2
        = [{ name := "user_stop_typing",
             payload := [("user_id", .nat u), ("group_id", .int g)],
             target := .toRoom (roomName g) (some sid) }] := by
  intro sid gopt st res hd
  unfold handle_stop_typing at hd
  repeat' split at hd
  all_goals cases hd
  all_goals first
    | exact Or.inl rfl
    | exact Or.inr ⟨_, _, rfl⟩

/-- Claim C5 as amended: no handler exception crashes the dispatcher
(dispatch is total); an exception in the join/leave/typing handlers is
swallowed by the log-only default error handler — state unchanged and
nothing emitted, in particular no private error event; only
`handle_send_message` catches its own exceptions, emitting exactly one
private `send_error` on any failure (and exactly one `new_message` room
broadcast on success); every direct-to-sid emit of any handler targets
the originating sid, and no other session's registry entry is ever
mutated. -/
theorem C5_handler_error_policy :
    ∀ ul sid now e st,
      ((e = .join_group none ∨ e = .leave_group none ∨ e = .typing none
          ∨ e = .stop_typing none) →
        dispatch ul sid now e st = (st, [])) ∧
      (∀ d ok, e = .send_message d ok →
        (∃ msg, (dispatch ul sid now e st).2 = [sendErrorEvent msg sid]) ∨
        (∃ p r, (dispatch ul sid now e st).2
            = [{ name := "new_message", payload := p,
                 target := .toRoom r none }])) ∧
      (∀ ev, ev ∈ (dispatch ul sid now e st).2 →
        ∀ s, ev.target = .toSid s → s = sid) ∧
      (∀ s, s ≠ sid →
        alookup (dispatch ul sid now e st).1.connected_users s
          = alookup st.connected_users s) := by
  intro ul sid now e st
  refine ⟨?_, ?_, ?_, ?_⟩
  · rintro (rfl | rfl | rfl | rfl) <;> rfl
  · rintro d ok rfl
    rcases send_shape ul sid d now ok st with
      ⟨msg, st2, heq, -⟩ | ⟨m, st2, heq, -, -⟩
    · left
      exact ⟨msg, by rw [show dispatch ul sid now (.send_message d ok) st = handle_send_message ul sid d now ok st from rfl, heq]⟩
    · right
      exact ⟨newMessagePayload ul m, roomName m.group_chat_id, by rw [show dispatch ul sid now (.send_message d ok) st = handle_send_message ul sid d now ok st from rfl, heq]⟩
  · intro ev hev s htg
    cases e with
    | join_group gopt =>
      cases gopt with
      | none => simp [dispatch, handle_join_group] at hev
      | some g =>
        simp only [dispatch, handle_join_group] at hev
        rw [List.mem_singleton] at hev
        subst hev
        injection htg with h1
        exact h1.symm
    | leave_group gopt =>
      cases gopt with
      | none => simp [dispatch, handle_leave_group] at hev
      | some g =>
        simp only [dispatch, handle_leave_group] at hev
        rw [List.mem_singleton] at hev
        subst hev
        injection htg with h1
        exact h1.symm
    | send_message d ok =>
      rcases send_shape ul sid d now ok st with
        ⟨msg, st2, heq, -⟩ | ⟨m, st2, heq, -, -⟩
      · rw [show dispatch ul sid now (.send_message d ok) st = handle_send_message ul sid d now ok st from rfl, heq] at hev
        rw [List.mem_singleton] at hev
        subst hev
        injection htg with h1
        exact h1.symm
      · rw [show dispatch ul sid now (.send_message d ok) st = handle_send_message ul sid d now ok st from rfl, heq] at hev
        rw [List.mem_singleton] at hev
        subst hev
        cases htg
    | typing gopt =>
      cases gopt with
      | none => simp [dispatch, handle_typing] at hev
      | some g =>
        cases hd : handle_typing sid (some g) st with
        | error e2 =>
          simp only [dispatch, hd] at hev
          simp at hev
        | ok res =>
          simp only [dispatch, hd] at hev
          rcases typing_emit_shape sid (some g) st res hd with hsh | ⟨u, g2, hsh⟩
          · rw [hsh] at hev
            simp at hev
          · rw [hsh, List.mem_singleton] at hev
            subst hev
            cases htg
    | stop_typing gopt =>
      cases gopt with
      | none => simp [dispatch, handle_stop_typing] at hev
      | some g =>
        cases hd : handle_stop_typing sid (some g) st with
        | error e2 =>
          simp only [dispatch, hd] at hev
          simp at hev
        | ok res =>
          simp only [dispatch, hd] at hev
          rcases stop_typing_emit_shape sid (some g) st res hd with hsh | ⟨u, g2, hsh⟩
          · rw [hsh] at hev
            simp at hev
          · rw [hsh, List.mem_singleton] at hev
            subst hev
            cases htg
  · intro s hs
    cases e with
    | join_group gopt =>
      cases gopt with
      | none => rfl
      | some g =>
        simp only [dispatch, handle_join_group]
        split
        · rfl
        · exact alookup_aset_ne _ _ _ _ hs
    | leave_group gopt =>
      cases gopt with
      | none => rfl
      | some g =>
        simp only [dispatch, handle_leave_group]
        split
        · rfl
        · exact alookup_aset_ne _ _ _ _ hs
    | send_message d ok =>
      have hcu := (send_frame ul sid d now ok st).1
      show alookup (handle_send_message ul sid d now ok st).1.connected_users s = _
      rw [hcu]
    | typing gopt =>
      cases gopt with
      | none => rfl
      | some g =>
        cases hd : handle_typing sid (some g) st with
        | error e2 => simp only [dispatch, hd]
        | ok res =>
          have hcu := ((typing_frame sid (some g) st).1 res hd).1
          simp only [dispatch, hd]
          rw [hcu]
    | stop_typing gopt =>
      cases gopt with
      | none => rfl
      | some g =>
        cases hd : handle_stop_typing sid (some g) st with
        | error e2 => simp only [dispatch, hd]
        | ok res =>
          have hcu := ((typing_frame sid (some g) st).2 res hd).1
          simp only [dispatch, hd]
          rw [hcu]

/-- Witness for C5 amended: the raising-join branch evaluated on the
fixture. -/
theorem C5_handler_error_policy_witness :
    dispatch ul0 1 0 (Event.join_group none) stC5 = (stC5, []) :=
  (C5_handler_error_policy ul0 1 0 (Event.join_group none) stC5).1
    (Or.inl rfl)

/-- Fixture: sid 1 already registered to user 7. -/
def stC8 : ChatState :=
  { connected_users := [(1, ⟨7, [], 0⟩)], server_rooms := [],
    user_typing := [], rate_limit_store := [], messages := [] }

/-- Counterexample to C8: a connect handshake for an already-registered
sid does not fail — it silently replaces the entry: sid 1, bound to
user 7, is rebound to user 9 and the handshake is accepted. -/
theorem C8_counterexample :
    alookup stC8.connected_users 1 = some ⟨7, [], 0⟩
    ∧ (handle_connect dec9 (some "tok") 1 5 stC8).2.2 = true
    ∧ alookup (handle_connect dec9 (some "tok") 1 5 stC8).1.connected_users 1
        = some ⟨9, [], 5⟩ :=
  ⟨rfl, rfl, rfl⟩

/-- Claim C8 as amended: `handle_connect` registers unconditionally and
silently overwrites an existing entry for the sid; under the transport
guarantee that a connect handshake only fires for a sid not currently
registered (the `Step` relation), a registered session's user_id is
unchanged by every step from a reachable state, so a session_id is
bound to one user_id for the session's lifetime. -/
theorem C8_register_no_rebind :
    ∀ decode ul st st2, Reachable decode ul st → Step decode ul st st2 →
      ∀ sid info info2,
        alookup st.connected_users sid = some info →
        alookup st2.connected_users sid = some info2 →
        info2.user_id = info.user_id := by
  intro decode ul st st2 hreach hstep sid info info2 h1 h2
  have hnd : NodupKeys st.connected_users := (reachable_reachInv hreach).1
  cases hstep with
  | connect s2 token now fresh =>
    cases token with
    | none =>
      have h2b : alookup st.connected_users sid = some info2 := h2
      rw [h1] at h2b
      injection h2b with hh
      rw [hh]
    | some tok =>
      cases hdec : decode tok with
      | none =>
        simp only [handle_connect, hdec] at h2
        rw [h1] at h2
        injection h2 with hh
        rw [hh]
      | some sub =>
        cases sub with
        | none =>
          simp only [handle_connect, hdec] at h2
          rw [h1] at h2
          injection h2 with hh
          rw [hh]
        | some uid =>
          by_cases hz : uid = 0
          · simp only [handle_connect, hdec, if_pos hz] at h2
            rw [h1] at h2
            injection h2 with hh
            rw [hh]
          · simp only [handle_connect, hdec, if_neg hz] at h2
            by_cases hs : sid = s2
            · subst hs
              rw [fresh] at h1
              cases h1
            · rw [alookup_aset_ne _ _ _ _ hs, h1] at h2
              injection h2 with hh
              rw [hh]
  | disconnect s2 =>
    by_cases hs : sid = s2
    · subst hs
      show info2.user_id = info.user_id
      rw [show (handle_disconnect sid st).1.connected_users
            = apop st.connected_users sid from rfl] at h2
      rw [alookup_apop_self _ _ hnd] at h2
      cases h2
    · rw [show (handle_disconnect s2 st).1.connected_users
            = apop st.connected_users s2 from rfl] at h2
      rw [alookup_apop_ne _ _ _ hs, h1] at h2
      injection h2 with hh
      rw [hh]
  | active s2 now e live =>
    cases e with
    | join_group gopt =>
      cases gopt with
      | none =>
        have h2b : alookup st.connected_users sid = some info2 := h2
        rw [h1] at h2b
        injection h2b with hh
        rw [hh]
      | some g =>
        cases hlive : alookup st.connected_users s2 with
        | none => rw [hlive] at live; cases live
        | some infoJ =>
          simp only [dispatch, handle_join_group, hlive] at h2
          by_cases hs : sid = s2
          · subst hs
            rw [alookup_aset_self] at h2
            injection h2 with hh
            rw [hlive] at h1
            injection h1 with hh1
            rw [← hh, ← hh1]
          · rw [alookup_aset_ne _ _ _ _ hs, h1] at h2
            injection h2 with hh
            rw [hh]
    | leave_group gopt =>
      cases gopt with
      | none =>
        have h2b : alookup st.connected_users sid = some info2 := h2
        rw [h1] at h2b
        injection h2b with hh
        rw [hh]
      | some g =>
        cases hlive : alookup st.connected_users s2 with
        | none => rw [hlive] at live; cases live
        | some infoJ =>
          simp only [dispatch, handle_leave_group, hlive] at h2
          by_cases hs : sid = s2
          · subst hs
            rw [alookup_aset_self] at h2
            injection h2 with hh
            rw [hlive] at h1
            injection h1 with hh1
            rw [← hh, ← hh1]
          · rw [alookup_aset_ne _ _ _ _ hs, h1] at h2
            injection h2 with hh
            rw [hh]
    | send_message d ok =>
      have hcu := (send_frame ul s2 d now ok st).1
      rw [show (dispatch ul s2 now (.send_message d ok) st).1
            = (handle_send_message ul s2 d now ok st).1 from rfl] at h2
      rw [hcu, h1] at h2
      injection h2 with hh
      rw [hh]
    | typing gopt =>
      cases gopt with
      | none =>
        have h2b : alookup st.connected_users sid = some info2 := h2
        rw [h1] at h2b
        injection h2b with hh
        rw [hh]
      | some g =>
        cases hd : handle_typing s2 (some g) st with
        | error e2 =>
          simp only [dispatch, hd] at h2
          rw [h1] at h2
          injection h2 with hh
          rw [hh]
        | ok res =>
          have hcu := ((typing_frame s2 (some g) st).1 res hd).1
          simp only [dispatch, hd] at h2
          rw [hcu, h1] at h2
          injection h2 with hh
          rw [hh]
    | stop_typing gopt =>
      cases gopt with
      | none =>
        have h2b : alookup st.connected_users sid = some info2 := h2
        rw [h1] at h2b
        injection h2b with hh
        rw [hh]
      | some g =>
        cases hd : handle_stop_typing s2 (some g) st with
        | error e2 =>
          simp only [dispatch, hd] at h2
          rw [h1] at h2
          injection h2 with hh
          rw [hh]
        | ok res =>
          have hcu := ((typing_frame s2 (some g) st).2 res hd).1
          simp only [dispatch, hd] at h2
          rw [hcu, h1] at h2
          injection h2 with hh
          rw [hh]

/-- Witness for C8 amended: a concrete step (a join from a live session
in a reachable state) preserves the session's user id. -/
theorem C8_register_no_rebind_witness :
    (⟨9, ["group_5"], 0⟩ : SessionInfo).user_id
      = (⟨9, [], 0⟩ : SessionInfo).user_id :=
  C8_register_no_rebind dec9 ul0
    (handle_connect dec9 (some "tok") 1 0 initState).1
    (dispatch ul0 1 0 (Event.join_group (some 5))
      (handle_connect dec9 (some "tok") 1 0 initState).1).1
    (Relation.ReflTransGen.single (Step.connect 1 (some "tok") 0 rfl))
    (Step.active 1 0 (Event.join_group (some 5)) rfl)
    1 ⟨9, [], 0⟩ ⟨9, ["group_5"], 0⟩ rfl rfl

end Pensa
